import Mathlib

/-!
Shallow embedding of the `earentir/ehw` terminal UI core (tui.go, hardware.go,
cpu.go): the data model, the geometry/layout functions, the page renderers
(as functions from snapshot + view state + viewport to a list of draw calls),
and the input-event step function.  Machine integers of the Go source (`int`,
`uint32`) are modelled as `Int` resp. `Nat`; Go's truncated integer division
and remainder are `Int.tdiv` / `Int.tmod`; a Go slice expression that can go
out of range is modelled as an `Option`.
-/

namespace Ehw

/-- Go integer division: truncates toward zero. -/
def goDiv (a b : Int) : Int := Int.tdiv a b

/-- Go integer remainder: sign of the dividend. -/
def goMod (a b : Int) : Int := Int.tmod a b

/-! ## Data model (hardware.go) -/

/-- hardware.go `FeatureDetail`. -/
structure FeatureDetail where
  Name : String
  Description : String
  Vendor : String
  Category : String
deriving DecidableEq

/-- hardware.go `CacheDetail`.  The Go field `Type` is called `CType` here
because `Type` is reserved in Lean. -/
structure CacheDetail where
  Level : Nat
  CType : String
  SizeKB : Nat
  Ways : Nat
  LineSizeBytes : Nat
  TotalSets : Nat
  MaxCoresSharing : Nat
  SelfInitializing : Bool
  FullyAssociative : Bool
  MaxProcessorIDs : Nat
  WritePolicy : String
deriving DecidableEq

/-- hardware.go `TLBEntry`. -/
structure TLBEntry where
  PageSize : String
  Entries : Int
  Associativity : String
deriving DecidableEq

/-- hardware.go `TLBInfo`. -/
structure TLBInfo where
  L1Data : List TLBEntry
  L1Inst : List TLBEntry
  L2Unified : List TLBEntry
deriving DecidableEq

/-- hardware.go `HybridInfo`. -/
structure HybridInfo where
  IsHybrid : Bool
  CoreType : String
deriving DecidableEq

/-- hardware.go `ProcessorInfoDetail`. -/
structure ProcessorInfoDetail where
  MaxLogicalProcessors : Nat
  InitialAPICID : Nat
  PhysicalAddressBits : Nat
  LinearAddressBits : Nat
  CoreCount : Nat
  ThreadPerCore : Nat
deriving DecidableEq

/-- hardware.go `ModelDataDetail`. -/
structure ModelDataDetail where
  SteppingID : Nat
  ModelID : Nat
  FamilyID : Nat
  ProcessorType : Nat
  ExtendedModelID : Nat
  ExtendedFamilyID : Nat
  ExtendedModel : Nat
  ExtendedFamily : Nat
deriving DecidableEq

/-- hardware.go `CPUInfo`.  The Go map `FeatureCategories` is modelled as its
key list (`FeatureCategoriesKeys`, in the map's arbitrary iteration order)
together with its lookup function (`FeatureCategoriesMap`); `len` of the map
is the length of the key list. -/
structure CPUInfo where
  Vendor : String
  Brand : String
  Model : String
  Family : Nat
  ModelNumber : Nat
  Stepping : Nat
  Cores : Nat
  Threads : Nat
  Features : List String
  FeatureCategoriesKeys : List String
  FeatureCategoriesMap : String → List FeatureDetail
  CacheInfo : List String
  CacheDetails : List CacheDetail
  TLBInfo : TLBInfo
  HybridInfo : HybridInfo
  ProcessorInfo : ProcessorInfoDetail
  ModelData : ModelDataDetail
  MaxFunc : Nat
  MaxExtFunc : Nat
  PhysicalAddrBits : Nat
  LinearAddrBits : Nat

/-- hardware.go `HardwareInfo`. -/
structure HardwareInfo where
  CPU : CPUInfo

/-! ## Text truncation (hardware.go `truncateString`) -/

/-- Go slice expression `s[:k]` on our character model of strings:
`none` models the runtime slice-bounds failure when `k < 0` or
`k > len(s)`. -/
def goSliceTo (s : String) (k : Int) : Option String :=
  if 0 ≤ k ∧ k ≤ (s.length : Int) then some (String.mk (s.data.take k.toNat)) else none

/-- hardware.go `truncateString`: unchanged if it fits, hard cut for
`maxLen ≤ 3`, otherwise cut to `maxLen - 3` and append the ellipsis.
`none` models a runtime failure of the slice expression. -/
def truncateString (s : String) (maxLen : Int) : Option String :=
  if (s.length : Int) ≤ maxLen then some s
  else if maxLen ≤ 3 then goSliceTo s maxLen
  else (goSliceTo s (maxLen - 3)).map (fun t => t ++ "...")

/-! ## Menu geometry

tui.go computes the menu geometry twice with the same code: once in
`renderMenu` (lines 299-324, to draw) and once in `handleMouse`
(lines 145-168, to hit-test).  Both computations are transcribed
separately below. -/

/-- The page label list `[]string{"Summary", "CPU"}`, appearing verbatim in
both `renderMenu` and `handleMouse`. -/
def menuItemsList : List String := ["Summary", "CPU"]

/-- `renderMenu`: `menuWidth` accumulated as `len(item) + 3` per item, then
decremented by one. -/
def renderMenuWidth : Int :=
  (menuItemsList.foldl (fun acc item => acc + ((item.length : Int) + 3)) 0) - 1

/-- `renderMenu`: `startX := (width - menuWidth) / 2`, clamped below at 2. -/
def renderMenuStartX (width : Int) : Int :=
  let s := goDiv (width - renderMenuWidth) 2
  if s < 2 then 2 else s

/-- `renderMenu`: the horizontal rectangle (start x, width) occupied by each
menu item; the cursor starts at `startX` and advances by `len(item) + 3`. -/
def renderMenuRects (width : Int) : List (Int × Int) :=
  (menuItemsList.foldl
    (fun (p : Int × List (Int × Int)) item =>
      (p.1 + ((item.length : Int) + 3), p.2 ++ [(p.1, (item.length : Int) + 3)]))
    (renderMenuStartX width, [])).2

/-- `handleMouse`: `menuWidth` accumulated as `len(item) + 3` per item, then
decremented by one (tui.go lines 148-152). -/
def mouseMenuWidth : Int :=
  (menuItemsList.foldl (fun acc item => acc + ((item.length : Int) + 3)) 0) - 1

/-- `handleMouse`: `startX := (width - menuWidth) / 2`, clamped below at 2
(tui.go lines 153-156). -/
def mouseMenuStartX (width : Int) : Int :=
  let s := goDiv (width - mouseMenuWidth) 2
  if s < 2 then 2 else s

/-- `handleMouse`: the hit rectangle (start x, width) per item as the
hit-test loop walks them (tui.go lines 158-168). -/
def mouseMenuRects (width : Int) : List (Int × Int) :=
  (menuItemsList.foldl
    (fun (p : Int × List (Int × Int)) item =>
      (p.1 + ((item.length : Int) + 3), p.2 ++ [(p.1, (item.length : Int) + 3)]))
    (mouseMenuStartX width, [])).2

/-- `handleMouse`: the hit-test loop body.  Starting from x position `x`,
walk the remaining items; return the index of the item whose span
`[x, x + len(item) + 3)` contains `mx`. -/
def mouseHitLoop (mx : Int) : Int → List String → Nat → Option Nat
  | _, [], _ => none
  | x, item :: rest, i =>
    let itemWidth := (item.length : Int) + 3
    if x ≤ mx ∧ mx < x + itemWidth then some i
    else mouseHitLoop mx (x + itemWidth) rest (i + 1)

/-- `handleMouse`: full hit test of a click at column `mx` against the menu
of a terminal of the given width. -/
def mouseHitTest (width mx : Int) : Option Nat :=
  mouseHitLoop mx (mouseMenuStartX width) menuItemsList 0

/-! ## Multi-column feature layout (renderCPU, tui.go lines 618-646 and 659-687) -/

/-- `renderCPU`: number of columns for the feature grids: the available
width divided by the fixed column width 30, clamped to `[1, 4]`. -/
def layoutNumCols (avail : Int) : Int :=
  let n := goDiv avail 30
  let n := if n < 1 then 1 else n
  if n > 4 then 4 else n

/-- `renderCPU`: `numRows := (count + numCols - 1) / numCols`. -/
def layoutNumRows (count : Nat) (numCols : Int) : Int :=
  goDiv ((count : Int) + numCols - 1) numCols

/-! ## Page renderers (tui.go `renderSummary`, `renderCPU`)

A renderer is modelled as a function from snapshot, scroll offset and
viewport size to the ordered list of `PrintAt` calls it makes.  A draw op
records the cell position and the printed text; the text is an
`Option String` because the text argument may itself come from
`truncateString`, whose slice can fail at runtime. -/

/-- One `retrotui.PrintAt` call. -/
structure DrawOp where
  x : Int
  y : Int
  text : Option String
deriving DecidableEq

/-- The pervasive clipping guard `if y >= 2 && y < contentHeight`
around a single `PrintAt`. -/
def clippedAt (cH x y : Int) (text : Option String) : List DrawOp :=
  if 2 ≤ y ∧ y < cH then [⟨x, y, text⟩] else []

/-- tui.go `renderSectionTitle` (lines 271-297): draws the decorated
section title at `(x, y)` unless `y < 1`. -/
def renderSectionTitle (x y : Int) (title : String) : List DrawOp :=
  if y < 1 then [] else [⟨x, y, some ("───[ " ++ title ++ " ]───")⟩]

/-- A run of consecutive field lines: each text is printed at the fixed
x position under the usual clipping guard and the cursor advances by one
per line.  Returns the draw ops and the cursor after the run. -/
def fieldLines (cH x : Int) : Int → List (Option String) → List DrawOp × Int
  | y, [] => ([], y)
  | y, t :: ts =>
    let rest := fieldLines cH x (y + 1) ts
    (clippedAt cH x y t ++ rest.1, rest.2)

/-- The clipped list loop shared by the summary cache list and the TLB
entry lists: `if y >= contentHeight break; if y >= 2 print; y++`. -/
def clipListLoop {α : Type} (cH xp : Int) (mk : α → String) :
    Int → List α → List DrawOp × Int
  | y, [] => ([], y)
  | y, a :: rest =>
    if y ≥ cH then ([], y)
    else
      let op := if y ≥ 2 then [(⟨xp, y, some (mk a)⟩ : DrawOp)] else []
      let r := clipListLoop cH xp mk (y + 1) rest
      (op ++ r.1, r.2)

/-- renderSummary cache line: `"L%d %s: %d KB"`. -/
def summaryCacheLine (c : CacheDetail) : String :=
  "L" ++ toString c.Level ++ " " ++ c.CType ++ ": " ++ toString c.SizeKB ++ " KB"

/-- tui.go `renderSummary` (lines 335-392). -/
def renderSummary (info : CPUInfo) (scrollY width height : Int) : List DrawOp :=
  let y := 2 - scrollY
  let x : Int := 3
  let cH := height - 4
  let t1 := if 2 ≤ y ∧ y < cH then renderSectionTitle x y ("CPU") else []
  let r1 := fieldLines cH (x + 4) (y + 1)
    [some ("Vendor:     " ++ info.Vendor),
     (truncateString info.Brand (width - 20)).map (fun t => "Brand:      " ++ t),
     some ("Cores:      " ++ toString info.Cores),
     some ("Threads:    " ++ toString info.Threads)]
  let y := r1.2 + 1
  let t2 := if 2 ≤ y ∧ y < cH then renderSectionTitle x y ("Features") else []
  let r2 := fieldLines cH (x + 4) (y + 1)
    [some ("Total Features: " ++ toString info.Features.length),
     some ("Categories:     " ++ toString info.FeatureCategoriesKeys.length)]
  let y := r2.2 + 1
  if info.CacheDetails.length > 0 then
    let t3 := if 2 ≤ y ∧ y < cH then renderSectionTitle x y ("Cache") else []
    let r3 := clipListLoop cH (x + 4) summaryCacheLine (y + 1) info.CacheDetails
    t1 ++ r1.1 ++ t2 ++ r2.1 ++ t3 ++ r3.1
  else
    t1 ++ r1.1 ++ t2 ++ r2.1

/-- renderCPU detailed cache line 1. -/
def cacheLine1 (c : CacheDetail) : String :=
  "L" ++ toString c.Level ++ " " ++ c.CType ++ ": " ++ toString c.SizeKB ++
    " KB, " ++ toString c.Ways ++ "-way, " ++ toString c.LineSizeBytes ++
    " bytes/line, " ++ toString c.TotalSets ++ " sets"

/-- renderCPU detailed cache line 2. -/
def cacheLine2 (c : CacheDetail) : String :=
  "Max Cores Sharing: " ++ toString c.MaxCoresSharing ++
    " | Max Processor IDs: " ++ toString c.MaxProcessorIDs

/-- renderCPU detailed cache line 3. -/
def cacheLine3 (c : CacheDetail) : String :=
  "Write Policy: " ++ c.WritePolicy ++ " | Self-Init: " ++
    toString c.SelfInitializing ++ " | Fully Assoc: " ++ toString c.FullyAssociative

/-- tui.go lines 509-533, the detailed-cache loop of `renderCPU`.  Note the
`if y < 2 { y++; continue }` at the top of the loop body: an entry whose
first line is clipped above the viewport advances the cursor by one only
and its remaining two lines are skipped. -/
def cpuCacheLoop (cH x : Int) : Int → List CacheDetail → List DrawOp × Int
  | y, [] => ([], y)
  | y, cache :: rest =>
    if y ≥ cH then ([], y)
    else if y < 2 then cpuCacheLoop cH x (y + 1) rest
    else
      let op1 : List DrawOp := [⟨x + 4, y, some (cacheLine1 cache)⟩]
      let y := y + 1
      if y ≥ cH then (op1, y)
      else
        let op2 := if y ≥ 2 then [(⟨x + 8, y, some (cacheLine2 cache)⟩ : DrawOp)] else []
        let y := y + 1
        let op3 := clippedAt cH (x + 8) y (some (cacheLine3 cache))
        let y := y + 1
        let r := cpuCacheLoop cH x y rest
        (op1 ++ op2 ++ op3 ++ r.1, r.2)

/-- A TLB entry line: `"%s: %d entries, %s associativity"`. -/
def tlbLine (e : TLBEntry) : String :=
  e.PageSize ++ ": " ++ toString e.Entries ++ " entries, " ++
    e.Associativity ++ " associativity"

/-- One TLB group (tui.go lines 543-558 and the two analogous groups):
if the list is nonempty, print the clipped header, advance, and run the
clipped entry loop. -/
def tlbGroup (cH x : Int) (header : String) (entries : List TLBEntry) (y : Int) :
    List DrawOp × Int :=
  if entries.length > 0 then
    let hd := clippedAt cH (x + 4) y (some header)
    let r := clipListLoop cH (x + 8) tlbLine (y + 1) entries
    (hd ++ r.1, r.2)
  else ([], y)

/-- The inner column loop of a feature grid row (tui.go lines 637-644 and
678-685): for each column, compute `idx = row*numCols + col` and, when it
is still a valid index, print the truncated name at `baseX + col*colWidth`. -/
def featureCellOps (names : List String) (numCols : Nat) (baseX colWidth : Int)
    (row : Nat) (y : Int) : List DrawOp :=
  (List.range numCols).flatMap (fun col =>
    if row * numCols + col < names.length then
      [⟨baseX + (col : Int) * colWidth, y,
        truncateString (names.getD (row * numCols + col) ("")) (colWidth - 2)⟩]
    else [])

/-- The row loop of a feature grid (tui.go lines 632-646 and 673-687):
`if y >= contentHeight break; if y >= 2 draw the row; y++`. -/
def rowsLoop (cH : Int) (mkRow : Nat → Int → List DrawOp) :
    Nat → Nat → Int → List DrawOp × Int
  | _, 0, y => ([], y)
  | row, r + 1, y =>
    if y ≥ cH then ([], y)
    else
      let ops := if y ≥ 2 then mkRow row y else []
      let rest := rowsLoop cH mkRow (row + 1) r (y + 1)
      (ops ++ rest.1, rest.2)

/-- The per-category loop of the feature-category section (tui.go lines
608-648): header (with break above `contentHeight`), then the column grid
of the category's features, then one blank line. -/
def catLoop (catMap : String → List FeatureDetail) (x cH width : Int) :
    Int → List String → List DrawOp × Int
  | y, [] => ([], y)
  | y, category :: rest =>
    let features := catMap category
    if y ≥ cH then ([], y)
    else
      let hd := if y ≥ 2 then
          [(⟨x + 4, y, some ("▸ " ++ category ++ " (" ++ toString features.length ++ " features)")⟩ : DrawOp)]
        else []
      let y := y + 1
      let numCols := (layoutNumCols (width - x - 8)).toNat
      let numRows := (layoutNumRows features.length (layoutNumCols (width - x - 8))).toNat
      let r := rowsLoop cH
        (featureCellOps (features.map FeatureDetail.Name) numCols (x + 8) 30) 0 numRows y
      let rec2 := catLoop catMap x cH width (r.2 + 1) rest
      (hd ++ r.1 ++ rec2.1, rec2.2)

/-- Go's `sort.Strings`: ascending lexicographic sort. -/
def sortStrings (l : List String) : List String :=
  List.insertionSort (· ≤ ·) l

/-- The feature-category section of `renderCPU` (tui.go lines 594-650):
skipped when the map is empty; otherwise section title, then the key list
is materialized and sorted before iteration. -/
def catSection (catKeys : List String) (catMap : String → List FeatureDetail)
    (x cH width y : Int) : List DrawOp × Int :=
  if catKeys.length > 0 then
    let t := if 2 ≤ y ∧ y < cH then renderSectionTitle x y ("Supported Features by Category") else []
    let categoryNames := sortStrings catKeys
    let r := catLoop catMap x cH width (y + 1) categoryNames
    (t ++ r.1, r.2 + 2)
  else ([], y)

/-- The flat all-features section of `renderCPU` (tui.go lines 652-688). -/
def allFeaturesSection (features : List String) (x cH width : Int) (y : Int) :
    List DrawOp :=
  if features.length > 0 then
    let t := if 2 ≤ y ∧ y < cH then
        renderSectionTitle x y ("All Supported Features (" ++ toString features.length ++ " total)")
      else []
    let numCols := (layoutNumCols (width - x - 4)).toNat
    let numRows := (layoutNumRows features.length (layoutNumCols (width - x - 4))).toNat
    let r := rowsLoop cH (featureCellOps features numCols (x + 4) 30) 0 numRows (y + 1)
    t ++ r.1
  else []

/-- tui.go `renderCPU` (lines 394-689). -/
def renderCPU (info : CPUInfo) (scrollY width height : Int) : List DrawOp :=
  let y := 2 - scrollY
  let x : Int := 3
  let cH := height - 4
  -- Basic Info (lines 399-451)
  let t1 := if 2 ≤ y ∧ y < cH then renderSectionTitle x y ("Basic Information") else []
  let r1 := fieldLines cH (x + 4) (y + 1)
    [some ("Vendor:        " ++ info.Vendor),
     (truncateString info.Brand (width - 25)).map (fun t => "Brand:         " ++ t),
     some ("Model:         " ++ info.Model),
     some ("Family:        " ++ toString info.Family),
     some ("Model Number:  " ++ toString info.ModelNumber),
     some ("Stepping:      " ++ toString info.Stepping),
     some ("Cores:         " ++ toString info.Cores),
     some ("Threads:       " ++ toString info.Threads),
     some ("Max Func:      " ++ toString info.MaxFunc),
     some ("Max Ext Func:  " ++ toString info.MaxExtFunc),
     some ("Phys Addr Bits: " ++ toString info.PhysicalAddrBits),
     some ("Linear Addr Bits: " ++ toString info.LinearAddrBits)]
  let y := r1.2 + 1
  -- Processor Details (lines 453-469)
  let t2 := if 2 ≤ y ∧ y < cH then renderSectionTitle x y ("Processor Details") else []
  let r2 := fieldLines cH (x + 4) (y + 1)
    [some ("Max Logical Processors: " ++ toString info.ProcessorInfo.MaxLogicalProcessors),
     some ("Initial APIC ID: " ++ toString info.ProcessorInfo.InitialAPICID),
     some ("Threads Per Core: " ++ toString info.ProcessorInfo.ThreadPerCore)]
  let y := r2.2 + 1
  -- Model Data (lines 471-489)
  let t3 := if 2 ≤ y ∧ y < cH then renderSectionTitle x y ("Model Data") else []
  let r3 := fieldLines cH (x + 4) (y + 1)
    [some ("Stepping ID: " ++ toString info.ModelData.SteppingID ++ " | Model ID: " ++
       toString info.ModelData.ModelID ++ " | Family ID: " ++ toString info.ModelData.FamilyID),
     some ("Extended Model: " ++ toString info.ModelData.ExtendedModel ++
       " | Extended Family: " ++ toString info.ModelData.ExtendedFamily),
     some ("Processor Type: " ++ toString info.ModelData.ProcessorType)]
  let y := r3.2 + 1
  -- Hybrid Info (lines 491-501)
  let hybrid :=
    if info.HybridInfo.IsHybrid then
      let t := if 2 ≤ y ∧ y < cH then renderSectionTitle x y ("Hybrid CPU Information") else []
      let f := clippedAt cH (x + 4) (y + 1) (some ("Core Type: " ++ info.HybridInfo.CoreType))
      (t ++ f, y + 3)
    else ([], y)
  let y := hybrid.2
  -- Detailed Cache Info (lines 503-535)
  let cacheSec :=
    if info.CacheDetails.length > 0 then
      let t := if 2 ≤ y ∧ y < cH then renderSectionTitle x y ("Detailed Cache Information") else []
      let r := cpuCacheLoop cH x (y + 1) info.CacheDetails
      (t ++ r.1, r.2 + 2)
    else ([], y)
  let y := cacheSec.2
  -- TLB Info (lines 537-592)
  let tlbSec :=
    if info.TLBInfo.L1Data.length > 0 ∨ info.TLBInfo.L1Inst.length > 0 ∨
        info.TLBInfo.L2Unified.length > 0 then
      let t := if 2 ≤ y ∧ y < cH then
          renderSectionTitle x y ("TLB (Translation Lookaside Buffer)")
        else []
      let g1 := tlbGroup cH x ("L1 Data TLB:") info.TLBInfo.L1Data (y + 1)
      let g2 := tlbGroup cH x ("L1 Instruction TLB:") info.TLBInfo.L1Inst g1.2
      let g3 := tlbGroup cH x ("L2 Unified TLB:") info.TLBInfo.L2Unified g2.2
      (t ++ g1.1 ++ g2.1 ++ g3.1, g3.2 + 2)
    else ([], y)
  let y := tlbSec.2
  -- Feature categories (lines 594-650)
  let cats := catSection info.FeatureCategoriesKeys info.FeatureCategoriesMap x cH width y
  let y := cats.2
  -- All features (lines 652-688)
  let allF := allFeaturesSection info.Features x cH width y
  t1 ++ r1.1 ++ t2 ++ r2.1 ++ t3 ++ r3.1 ++ hybrid.1 ++ cacheSec.1 ++
    tlbSec.1 ++ cats.1 ++ allF

/-! ## View controller state and input dispatch (tui.go `App`, `eventLoop`,
`handleMouse`, `nextPage`, `prevPage`)

The mutable view state is the current page (Go `Page` is an `int`) and the
scroll offset.  Each input event maps the state to a new state together
with a flag recording whether `render()` was called for it.  Quit events
(escape, Ctrl+C, q/Q) terminate the loop without touching the view state
and are not modelled as steps. -/

/-- The mutable fields of tui.go `App` that input events touch. -/
structure AppState where
  currentPage : Int
  scrollY : Int
deriving DecidableEq

/-- The initial state built in `runTUI`: `currentPage: PageSummary, scrollY: 0`. -/
def initApp : AppState := { currentPage := 0, scrollY := 0 }

/-- The input events dispatched by `eventLoop` that reach the view state.
A mouse event carries its button flags (primary button, wheel up, wheel
down), its position and the terminal size at the time of the event. -/
inductive Ev where
  | keyLeft
  | keyRight
  | keyUp
  | keyDown
  | resize
  | mouse (b1 wUp wDown : Bool) (mx my width height : Int)
deriving DecidableEq

/-- tui.go `handleMouse` (lines 125-170): wheel scrolling first (early
return), then the primary-button menu hit test on the two rows above the
bottom border.  Returns the new state and whether `render()` ran. -/
def handleMouseStep (s : AppState) (width height mx my : Int)
    (b1 wUp wDown : Bool) : AppState × Bool :=
  if wUp then
    if s.scrollY > 0 then ({ s with scrollY := s.scrollY - 1 }, true) else (s, false)
  else if wDown then ({ s with scrollY := s.scrollY + 1 }, true)
  else if b1 ∧ (my = height - 2 ∨ my = height - 3) then
    match mouseHitTest width mx with
    | some i => ({ currentPage := (i : Int), scrollY := 0 }, true)
    | none => (s, false)
  else (s, false)

/-- One turn of tui.go `eventLoop` (lines 82-123) for a non-quit event:
key-left/right switch page with wraparound (`prevPage`/`nextPage`, Go `%`)
and reset scroll, key-up scrolls up only above 0, key-down always scrolls
down, resize just re-renders, mouse events go to `handleMouse`. -/
def step (s : AppState) : Ev → AppState × Bool
  | .keyLeft => ({ currentPage := goMod (s.currentPage - 1 + 2) 2, scrollY := 0 }, true)
  | .keyRight => ({ currentPage := goMod (s.currentPage + 1) 2, scrollY := 0 }, true)
  | .keyUp =>
    if s.scrollY > 0 then ({ s with scrollY := s.scrollY - 1 }, true) else (s, false)
  | .keyDown => ({ s with scrollY := s.scrollY + 1 }, true)
  | .resize => (s, true)
  | .mouse b1 wUp wDown mx my width height =>
    handleMouseStep s width height mx my b1 wUp wDown

/-- The state after running a sequence of events from the initial state. -/
def runEvents (evs : List Ev) : AppState :=
  evs.foldl (fun s e => (step s e).1) initApp

/-! ## Concrete inputs used by the witnesses and counterexamples -/

/-- A concrete cache-detail record. -/
def cacheA : CacheDetail :=
  { Level := 1, CType := "Data", SizeKB := 48, Ways := 12, LineSizeBytes := 64,
    TotalSets := 64, MaxCoresSharing := 2, SelfInitializing := true,
    FullyAssociative := false, MaxProcessorIDs := 16, WritePolicy := "WB" }

/-- A second concrete cache-detail record. -/
def cacheB : CacheDetail :=
  { Level := 2, CType := "Unified", SizeKB := 1280, Ways := 10, LineSizeBytes := 64,
    TotalSets := 2048, MaxCoresSharing := 2, SelfInitializing := true,
    FullyAssociative := false, MaxProcessorIDs := 16, WritePolicy := "WB" }

/-- A concrete processor-info record. -/
def procInfoA : ProcessorInfoDetail :=
  { MaxLogicalProcessors := 8, InitialAPICID := 0, PhysicalAddressBits := 39,
    LinearAddressBits := 48, CoreCount := 4, ThreadPerCore := 2 }

/-- A concrete model-data record. -/
def modelDataA : ModelDataDetail :=
  { SteppingID := 1, ModelID := 12, FamilyID := 6, ProcessorType := 0,
    ExtendedModelID := 8, ExtendedFamilyID := 0, ExtendedModel := 140,
    ExtendedFamily := 6 }

/-- A snapshot whose CPU page content is the three mandatory sections plus
two detailed cache entries (hybrid off, TLB and feature data empty). -/
def snapC1 : CPUInfo :=
  { Vendor := "GenuineIntel", Brand := "TestCPU", Model := "Family 6, Model 140, Stepping 1",
    Family := 6, ModelNumber := 140, Stepping := 1, Cores := 4, Threads := 8,
    Features := [], FeatureCategoriesKeys := [], FeatureCategoriesMap := fun _ => [],
    CacheInfo := [], CacheDetails := [cacheA, cacheB],
    TLBInfo := { L1Data := [], L1Inst := [], L2Unified := [] },
    HybridInfo := { IsHybrid := false, CoreType := "" },
    ProcessorInfo := procInfoA, ModelData := modelDataA,
    MaxFunc := 32, MaxExtFunc := 8, PhysicalAddrBits := 39, LinearAddrBits := 48 }

/-- A snapshot with two feature categories listed in one key order. -/
def snapC9a : CPUInfo :=
  { snapC1 with
    FeatureCategoriesKeys := ["simd", "base"],
    FeatureCategoriesMap := fun c =>
      if c = "simd" then [{ Name := "sse2", Description := "", Vendor := "", Category := "simd" }]
      else if c = "base" then [{ Name := "fpu", Description := "", Vendor := "", Category := "base" }]
      else [] }

/-! ## Helper lemmas -/

/-- The accumulated menu width of `renderMenu` evaluates to 15. -/
theorem renderMenuWidth_eq : renderMenuWidth = 15 := by decide

/-- The two menu item rectangles computed by `renderMenu`. -/
theorem renderMenuRects_eq (width : Int) :
    renderMenuRects width =
      [(renderMenuStartX width, 10), (renderMenuStartX width + 10, 6)] := rfl

/-- The two menu item rectangles computed by `handleMouse`. -/
theorem mouseMenuRects_eq (width : Int) :
    mouseMenuRects width =
      [(mouseMenuStartX width, 10), (mouseMenuStartX width + 10, 6)] := rfl

/-- The hit test unfolded over the two concrete menu items. -/
theorem mouseHitTest_unfold (width mx : Int) :
    mouseHitTest width mx =
      (if mouseMenuStartX width ≤ mx ∧ mx < mouseMenuStartX width + 10 then some 0
       else if mouseMenuStartX width + 10 ≤ mx ∧ mx < mouseMenuStartX width + 10 + 6 then
         some 1
       else none) := rfl

/-- For a truncated division used with the nonnegative dividends of this
code base, Go division agrees with mathematical floor division. -/
theorem goDiv_nonneg (a b : Int) (ha : 0 ≤ a) (hb : 0 ≤ b) : goDiv a b = a / b :=
  Int.tdiv_eq_ediv ha hb

/-! ## C1 -/

/-- C1: the universal clipping rule fails on `renderCPU`'s detailed-cache
loop.  On a snapshot whose detailed-cache section starts at logical line 24
(two 3-line entries at logical lines 25-30), viewport height 20
(content rows `[2, 16)`): at scroll offset 25 the code draws six cache
lines at rows 2-7, exactly the pure offset shift; at scroll offset 26 the
spec's rule (cursor `2 - s + i`, drawn iff in `[2, 16)`) predicts the five
lines `i = 26..30` at rows 2-6, but the code draws only three lines at
rows 2-4, because the loop advances the cursor by one instead of three for
the clipped first entry and skips its two remaining in-range lines.  At
scroll offset 100 (far past the page's 31 logical lines) nothing is drawn
and the result is well defined. -/
theorem renderCPU_cache_clip_not_offset_shift :
    (renderCPU snapC1 25 80 20).map DrawOp.y = [2, 3, 4, 5, 6, 7] ∧
    (renderCPU snapC1 26 80 20).map DrawOp.y = [2, 3, 4] ∧
    renderCPU snapC1 100 80 20 = [] := by
  exact ⟨rfl, rfl, rfl⟩

/-! ## C2 -/

/-- C2 counterexample: at terminal width 1 the claimed bound "the union of
the item spans never exceeds `width - 2`" fails: the second menu item's
rectangle starts at column 12 with width 6, so column 17 is covered, far
beyond `1 - 2 = -1`. -/
theorem menu_span_overflow_cex :
    ¬ (∀ p ∈ renderMenuRects 1, ∀ c : Int, p.1 ≤ c → c < p.1 + p.2 → c ≤ 1 - 2) := by
  intro h
  have := h (12, 6) (by decide) 17 (by decide) (by decide)
  omega

/-- C2 amended: each menu item's span is its label length plus 3, the total
menu width is the sum of the spans minus 1, the start X is
`max(2, (width - totalWidth) / 2)` with truncating division and is always
at least 2 for widths ≥ 1; the union of the item spans stays within column
`width - 2` for all widths ≥ 19 (not for all widths ≥ 1). -/
theorem menu_geometry_amended :
    (∀ width : Int, (renderMenuRects width).map Prod.snd =
      menuItemsList.map (fun item => (item.length : Int) + 3)) ∧
    (renderMenuWidth = (menuItemsList.map (fun item => (item.length : Int) + 3)).sum - 1) ∧
    (∀ width : Int, renderMenuStartX width = max 2 (goDiv (width - renderMenuWidth) 2)) ∧
    (∀ width : Int, 1 ≤ width → 2 ≤ renderMenuStartX width) ∧
    (∀ width : Int, 19 ≤ width → ∀ p ∈ renderMenuRects width, ∀ c : Int,
      p.1 ≤ c → c < p.1 + p.2 → c ≤ width - 2) := by
  have hstart : ∀ width : Int,
      renderMenuStartX width =
        if goDiv (width - renderMenuWidth) 2 < 2 then 2
        else goDiv (width - renderMenuWidth) 2 := fun _ => rfl
  refine ⟨fun width => rfl, by decide, fun width => ?_, fun width _ => ?_, ?_⟩
  · rw [hstart width, max_def]
    generalize goDiv (width - renderMenuWidth) 2 = t
    split <;> split <;> omega
  · rw [hstart width]
    generalize goDiv (width - renderMenuWidth) 2 = t
    split <;> omega
  · intro width hw p hp c hc1 hc2
    have hdiv : goDiv (width - renderMenuWidth) 2 = (width - 15) / 2 := by
      rw [renderMenuWidth_eq]
      exact goDiv_nonneg _ _ (by omega) (by omega)
    have hsx : renderMenuStartX width ≤ width - 17 := by
      rw [hstart width, hdiv]
      have h2 : (width - 15) / 2 * 2 ≤ width - 15 := Int.ediv_mul_le _ (by omega)
      split <;> omega
    rw [renderMenuRects_eq] at hp
    simp only [List.mem_cons, List.not_mem_nil, or_false] at hp
    rcases hp with rfl | rfl
    · dsimp only at hc1 hc2
      omega
    · dsimp only at hc1 hc2
      omega

/-- C2 witness: at width 21 the start X is 3 ≥ 2, and column 11 of the
first item's span `[3, 13)` is within `21 - 2`. -/
theorem menu_geometry_amended_witness :
    2 ≤ renderMenuStartX 21 ∧ (11 : Int) ≤ 21 - 2 :=
  ⟨menu_geometry_amended.2.2.2.1 21 (by decide),
   menu_geometry_amended.2.2.2.2 21 (by decide) (3, 10) (by decide) 11 (by decide) (by decide)⟩

/-! ## C3 -/

/-- C3: the menu geometry computed by the drawing path (`renderMenu`) and
the one computed by the hit-testing path (`handleMouse`) agree at every
terminal width: same start X and the same item rectangles. -/
theorem menu_geometry_single_source :
    ∀ width : Int, renderMenuStartX width = mouseMenuStartX width ∧
      renderMenuRects width = mouseMenuRects width :=
  fun _ => ⟨rfl, rfl⟩

/-! ## C4 -/

/-- C4 counterexample: the claim quantifies over every integer `maxWidth`,
but for a negative width the `maxLen ≤ 3` branch evaluates the slice
`s[:maxLen]` with a negative bound, which is a runtime failure in Go, not
a hard cut. -/
theorem truncateString_negative_cex : truncateString ("ab") (-1) = none := by decide

/-- C4 amended: for every nonnegative `n`, `truncateString` is total:
it returns the string unchanged when it fits, a hard cut of the first `n`
characters when `n ≤ 3`, and the first `n - 3` characters followed by the
three-character ellipsis (total length exactly `n`) when `n > 3`; the
result length never exceeds `n` unless the string already fits. -/
theorem truncateString_amended (s : String) (n : Int) (hn : 0 ≤ n) :
    (∃ r, truncateString s n = some r ∧ (r.length : Int) ≤ n) ∧
    ((s.length : Int) ≤ n → truncateString s n = some s) ∧
    (n ≤ 3 → n < (s.length : Int) →
      truncateString s n = some (String.mk (s.data.take n.toNat))) ∧
    (3 < n → n < (s.length : Int) →
      truncateString s n = some (String.mk (s.data.take (n - 3).toNat) ++ "...") ∧
      ∀ r, truncateString s n = some r → (r.length : Int) = n) := by
  have hmk : ∀ l : List Char, (String.mk l).length = l.length := fun _ => rfl
  have hlen : s.length = s.data.length := rfl
  have hdots : ("..." : String).length = 3 := rfl
  unfold truncateString goSliceTo
  by_cases h1 : (s.length : Int) ≤ n
  · rw [if_pos h1]
    exact ⟨⟨s, rfl, h1⟩, fun _ => rfl,
      fun _ hlt => absurd hlt (by omega),
      fun _ hlt => absurd hlt (by omega)⟩
  · rw [if_neg h1]
    by_cases h2 : n ≤ 3
    · rw [if_pos h2, if_pos (⟨hn, by omega⟩ : 0 ≤ n ∧ n ≤ (s.length : Int))]
      refine ⟨⟨_, rfl, ?_⟩, fun hc => absurd hc h1, fun _ _ => rfl,
        fun h3 _ => absurd h2 (by omega)⟩
      rw [hmk]
      have := List.length_take n.toNat s.data
      omega
    · rw [if_neg h2, if_pos (⟨by omega, by omega⟩ : 0 ≤ n - 3 ∧ n - 3 ≤ (s.length : Int))]
      have hrlen : ((String.mk (s.data.take (n - 3).toNat) ++ "...").length : Int) = n := by
        rw [String.length_append, hmk, hdots]
        have := List.length_take (n - 3).toNat s.data
        omega
      refine ⟨⟨String.mk (s.data.take (n - 3).toNat) ++ "...", rfl, by omega⟩,
        fun hc => absurd hc h1, fun hc => absurd hc h2,
        fun _ _ => ⟨rfl, fun r hr => ?_⟩⟩
      have hre : String.mk (s.data.take (n - 3).toNat) ++ "..." = r := Option.some.inj hr
      rw [← hre]
      exact hrlen

/-- C4 witness: for the six-character string and width 5 the amended
theorem yields the ellipsis form of length 5. -/
theorem truncateString_amended_witness :
    truncateString ("abcdef") 5 = some (String.mk (("abcdef" : String).data.take 2) ++ "...") :=
  ((truncateString_amended ("abcdef") 5 (by decide)).2.2.2 (by decide) (by decide)).1

/-! ## C5 -/

/-- `layoutNumRows` over a positive column count is a floor division. -/
theorem layoutNumRows_eq (k : Nat) (cN : Int) (h : 1 ≤ cN) :
    layoutNumRows k cN = ((k : Int) + cN - 1) / cN := by
  unfold layoutNumRows
  exact goDiv_nonneg _ _ (by omega) (by omega)

/-- Unique (row, column) decomposition of a grid index. -/
theorem grid_unique (cN rowsN k i : Nat) (hc : 0 < cN) (hrows : k ≤ rowsN * cN)
    (hi : i < k) :
    ∃! rc : Nat × Nat, rc.1 < rowsN ∧ rc.2 < cN ∧ rc.1 * cN + rc.2 = i := by
  refine ⟨⟨i / cN, i % cN⟩, ⟨?_, ?_, ?_⟩, ?_⟩
  · exact (Nat.div_lt_iff_lt_mul hc).2 (lt_of_lt_of_le hi hrows)
  · exact Nat.mod_lt _ hc
  · exact Nat.div_add_mod' i cN
  · rintro ⟨r, col⟩ ⟨h1, h2, h3⟩
    have h4 : (r * cN + col) / cN = r := by
      rw [Nat.mul_comm, Nat.mul_add_div hc, Nat.div_eq_of_lt h2, Nat.add_zero]
    have h5 : (r * cN + col) % cN = col := by
      rw [Nat.mul_comm, Nat.mul_add_mod, Nat.mod_eq_of_lt h2]
    simp only [Prod.mk.injEq]
    exact ⟨by rw [← h4, h3], by rw [← h5, h3]⟩

/-- C5: the multi-column feature layout of `renderCPU`: the column count is
the available width divided by the fixed column width 30 and clamped to
`[1, 4]`; the row count is the ceiling of `count / columns`; every index
below the item count has exactly one (row, column) cell with
`row * columns + column = index`; and a cell op exists exactly for the
valid indices, at horizontal position `baseX + column * 30` (cells past
the last index stay blank). -/
theorem feature_grid_layout (avail : Int) (k : Nat) :
    (1 ≤ layoutNumCols avail ∧ layoutNumCols avail ≤ 4) ∧
    layoutNumCols avail = max 1 (min 4 (goDiv avail 30)) ∧
    ((k : Int) ≤ layoutNumRows k (layoutNumCols avail) * layoutNumCols avail ∧
      layoutNumRows k (layoutNumCols avail) * layoutNumCols avail <
        (k : Int) + layoutNumCols avail) ∧
    (∀ i : Nat, i < k → ∃! rc : Nat × Nat,
      rc.1 < (layoutNumRows k (layoutNumCols avail)).toNat ∧
      rc.2 < (layoutNumCols avail).toNat ∧
      rc.1 * (layoutNumCols avail).toNat + rc.2 = i) ∧
    (∀ (names : List String) (baseX y : Int) (row : Nat) (op : DrawOp),
      op ∈ featureCellOps names (layoutNumCols avail).toNat baseX 30 row y ↔
      ∃ col : Nat, col < (layoutNumCols avail).toNat ∧
        row * (layoutNumCols avail).toNat + col < names.length ∧
        op = ⟨baseX + (col : Int) * 30, y,
          truncateString (names.getD (row * (layoutNumCols avail).toNat + col) ("")) 28⟩) := by
  have hc : layoutNumCols avail =
      if (if goDiv avail 30 < 1 then 1 else goDiv avail 30) > 4 then 4
      else (if goDiv avail 30 < 1 then 1 else goDiv avail 30) := rfl
  have hbounds : 1 ≤ layoutNumCols avail ∧ layoutNumCols avail ≤ 4 := by
    rw [hc]; split_ifs <;> omega
  have hcases : layoutNumCols avail = 1 ∨ layoutNumCols avail = 2 ∨
      layoutNumCols avail = 3 ∨ layoutNumCols avail = 4 := by omega
  refine ⟨hbounds, ?_, ?_, ?_, ?_⟩
  · rw [hc, max_def, min_def]
    split_ifs <;> omega
  · rcases hcases with h | h | h | h <;>
      rw [h, layoutNumRows_eq k _ (by omega)] <;> omega
  · intro i hi
    rcases hcases with h | h | h | h
    · rw [h]
      refine grid_unique _ _ k i (by decide) ?_ hi
      rw [layoutNumRows_eq k 1 (by omega), show ((1 : Int)).toNat = 1 from rfl]
      omega
    · rw [h]
      refine grid_unique _ _ k i (by decide) ?_ hi
      rw [layoutNumRows_eq k 2 (by omega), show ((2 : Int)).toNat = 2 from rfl]
      omega
    · rw [h]
      refine grid_unique _ _ k i (by decide) ?_ hi
      rw [layoutNumRows_eq k 3 (by omega), show ((3 : Int)).toNat = 3 from rfl]
      omega
    · rw [h]
      refine grid_unique _ _ k i (by decide) ?_ hi
      rw [layoutNumRows_eq k 4 (by omega), show ((4 : Int)).toNat = 4 from rfl]
      omega
  · intro names baseX y row op
    unfold featureCellOps
    rw [List.mem_flatMap]
    constructor
    · rintro ⟨col, hcol, hop⟩
      rw [List.mem_range] at hcol
      by_cases hidx : row * (layoutNumCols avail).toNat + col < names.length
      · rw [if_pos hidx, List.mem_singleton] at hop
        exact ⟨col, hcol, hidx, hop⟩
      · rw [if_neg hidx] at hop
        exact absurd hop (List.not_mem_nil _)
    · rintro ⟨col, hcol, hidx, rfl⟩
      refine ⟨col, List.mem_range.2 hcol, ?_⟩
      rw [if_pos hidx]
      exact List.mem_singleton.2 rfl

/-- C5 witness: with available width 120 the layout uses 4 columns, and
index 6 of a 7-item grid has a unique (row, column) cell. -/
theorem feature_grid_layout_witness :
    (1 ≤ layoutNumCols 120 ∧ layoutNumCols 120 ≤ 4) ∧
    (∃! rc : Nat × Nat, rc.1 < (layoutNumRows 7 (layoutNumCols 120)).toNat ∧
      rc.2 < (layoutNumCols 120).toNat ∧
      rc.1 * (layoutNumCols 120).toNat + rc.2 = 6) :=
  ⟨(feature_grid_layout 120 7).1, (feature_grid_layout 120 7).2.2.2.1 6 (by decide)⟩

/-! ## Step-function helpers -/

/-- A primary-button press on one of the two menu rows whose hit test finds
item `i` jumps to page `i`, resets the scroll offset and re-renders. -/
theorem step_click_hit (s : AppState) (width height mx my : Int) (i : Nat)
    (hrow : my = height - 2 ∨ my = height - 3)
    (hhit : mouseHitTest width mx = some i) :
    step s (Ev.mouse true false false mx my width height) =
      ({ currentPage := (i : Int), scrollY := 0 }, true) := by
  have hcond : True ∧ (my = height - 2 ∨ my = height - 3) := ⟨trivial, hrow⟩
  simp only [step, handleMouseStep]
  rw [if_neg (by decide), if_neg (by decide), if_pos hcond, hhit]

/-- A primary-button press on one of the two menu rows whose hit test finds
nothing leaves the state unchanged and does not render. -/
theorem step_click_none (s : AppState) (width height mx my : Int)
    (hrow : my = height - 2 ∨ my = height - 3)
    (hhit : mouseHitTest width mx = none) :
    step s (Ev.mouse true false false mx my width height) = (s, false) := by
  have hcond : True ∧ (my = height - 2 ∨ my = height - 3) := ⟨trivial, hrow⟩
  simp only [step, handleMouseStep]
  rw [if_neg (by decide), if_neg (by decide), if_pos hcond, hhit]

/-- Every event step keeps the scroll offset nonnegative. -/
theorem step_scrollY_nonneg (s : AppState) (e : Ev) (h : 0 ≤ s.scrollY) :
    0 ≤ (step s e).1.scrollY := by
  cases e <;> simp only [step, handleMouseStep] <;> repeat' split
  all_goals (try dsimp only)
  all_goals omega

/-- Folding any event list from a state with nonnegative scroll offset
keeps the offset nonnegative. -/
theorem foldl_step_nonneg (evs : List Ev) : ∀ s : AppState, 0 ≤ s.scrollY →
    0 ≤ (evs.foldl (fun t e => (step t e).1) s).scrollY := by
  induction evs with
  | nil => intro s h; simpa using h
  | cons e tl ih =>
    intro s h
    rw [List.foldl_cons]
    exact ih _ (step_scrollY_nonneg s e h)

/-! ## C6 -/

/-- C6: key-right / key-left wrap the current page around the two-page set
and reset the scroll offset to 0, and a page switch through a menu click
also resets the scroll offset to 0, whatever the previous offset was. -/
theorem page_switch_wraps_resets (s : AppState)
    (hp : s.currentPage = 0 ∨ s.currentPage = 1) :
    ((step s Ev.keyRight).1.currentPage = (if s.currentPage = 0 then 1 else 0) ∧
      (step s Ev.keyRight).1.scrollY = 0) ∧
    ((step s Ev.keyLeft).1.currentPage = (if s.currentPage = 0 then 1 else 0) ∧
      (step s Ev.keyLeft).1.scrollY = 0) ∧
    (∀ width height mx my : Int, ∀ i : Nat,
      (my = height - 2 ∨ my = height - 3) → mouseHitTest width mx = some i →
      (step s (Ev.mouse true false false mx my width height)).1 =
        { currentPage := (i : Int), scrollY := 0 }) := by
  refine ⟨?_, ?_, ?_⟩
  · rcases hp with h | h <;> simp only [step, h] <;> exact ⟨by decide, by trivial⟩
  · rcases hp with h | h <;> simp only [step, h] <;> exact ⟨by decide, by trivial⟩
  · intro width height mx my i hrow hhit
    rw [step_click_hit s width height mx my i hrow hhit]

/-- C6 witness: from page 1 with scroll offset 7, key-right wraps to page 0
with scroll 0, and a click at (3, 22) in an 21-column, 24-row terminal
selects page 0 with scroll 0. -/
theorem page_switch_wraps_resets_witness :
    ((step { currentPage := 1, scrollY := 7 } Ev.keyRight).1.currentPage =
      (if (1 : Int) = 0 then 1 else 0) ∧
      (step { currentPage := 1, scrollY := 7 } Ev.keyRight).1.scrollY = 0) ∧
    (step { currentPage := 1, scrollY := 7 } (Ev.mouse true false false 3 22 21 24)).1 =
      { currentPage := (0 : Int), scrollY := 0 } :=
  ⟨(page_switch_wraps_resets { currentPage := 1, scrollY := 7 } (Or.inr rfl)).1,
   (page_switch_wraps_resets { currentPage := 1, scrollY := 7 } (Or.inr rfl)).2.2
     21 24 3 22 0 (Or.inl (by decide)) (by decide)⟩

/-! ## C7 -/

/-- C7: from the initial state every event sequence keeps the scroll offset
nonnegative; scroll-up (key or wheel) decrements only a strictly positive
offset, so repeated key-up from 0 leaves the state unchanged, while
scroll-down (key or wheel) always increments. -/
theorem scroll_offset_invariant :
    (∀ evs : List Ev, 0 ≤ (runEvents evs).scrollY) ∧
    (∀ s : AppState, s.scrollY = 0 → ∀ n : Nat,
      (List.replicate n Ev.keyUp).foldl (fun t e => (step t e).1) s = s) ∧
    (∀ s : AppState, 0 < s.scrollY → (step s Ev.keyUp).1.scrollY = s.scrollY - 1) ∧
    (∀ s : AppState, s.scrollY ≤ 0 → (step s Ev.keyUp).1 = s) ∧
    (∀ s : AppState, (step s Ev.keyDown).1.scrollY = s.scrollY + 1) ∧
    (∀ (s : AppState) (mx my width height : Int), s.scrollY = 0 →
      (step s (Ev.mouse false true false mx my width height)).1 = s) ∧
    (∀ (s : AppState) (mx my width height : Int),
      (step s (Ev.mouse false false true mx my width height)).1.scrollY =
        s.scrollY + 1) := by
  refine ⟨fun evs => foldl_step_nonneg evs initApp (by decide), ?_, ?_, ?_, ?_, ?_, ?_⟩
  · intro s h n
    induction n with
    | zero => rfl
    | succ n ih =>
      rw [List.replicate_succ, List.foldl_cons,
        show (step s Ev.keyUp).1 = s by simp only [step]; rw [if_neg (by omega)]]
      exact ih
  · intro s h
    simp only [step]
    rw [if_pos (by omega)]
  · intro s h
    simp only [step]
    rw [if_neg (by omega)]
  · intro s
    rfl
  · intro s mx my width height h
    simp only [step, handleMouseStep]
    rw [if_pos True.intro, if_neg (by omega)]
  · intro s mx my width height
    simp only [step, handleMouseStep]
    rw [if_neg (by decide), if_pos True.intro]

/-- C7 witness: five key-ups from the initial state change nothing, and a
concrete event sequence keeps the offset nonnegative. -/
theorem scroll_offset_invariant_witness :
    (List.replicate 5 Ev.keyUp).foldl (fun t e => (step t e).1) initApp = initApp ∧
    0 ≤ (runEvents [Ev.keyDown, Ev.keyDown, Ev.keyUp, Ev.keyUp, Ev.keyUp]).scrollY :=
  ⟨scroll_offset_invariant.2.1 initApp rfl 5, scroll_offset_invariant.1 _⟩

/-! ## C8 -/

/-- C8: a primary-button click whose row is `height - 2` or `height - 3`
and whose column lies inside the `i`-th menu item's computed rectangle
sets the current page to `i` and resets the scroll, regardless of the
previously active page. -/
theorem menu_click_selects_page (s : AppState) (width height mx my : Int) (i : Nat)
    (hrow : my = height - 2 ∨ my = height - 3)
    (hi : i < menuItemsList.length)
    (hspan : ((mouseMenuRects width).getD i (0, 0)).1 ≤ mx ∧
      mx < ((mouseMenuRects width).getD i (0, 0)).1 +
        ((mouseMenuRects width).getD i (0, 0)).2) :
    (step s (Ev.mouse true false false mx my width height)).1 =
      { currentPage := (i : Int), scrollY := 0 } := by
  have hhit : mouseHitTest width mx = some i := by
    have hi2 : i < 2 := by
      have hl : menuItemsList.length = 2 := rfl
      omega
    rw [mouseMenuRects_eq] at hspan
    interval_cases i
    · simp only [List.getD_cons_zero] at hspan
      rw [mouseHitTest_unfold, if_pos hspan]
    · simp only [List.getD_cons_succ, List.getD_cons_zero] at hspan
      rw [mouseHitTest_unfold, if_neg (by rintro ⟨a, b⟩; omega), if_pos hspan]
  rw [step_click_hit s width height mx my i hrow hhit]

/-- C8 witness: clicking at (3, 22) in a 21 by 24 terminal, where the first
menu item spans `[3, 13)`, selects page 0 although page 1 was active. -/
theorem menu_click_selects_page_witness :
    (step { currentPage := 1, scrollY := 9 } (Ev.mouse true false false 3 22 21 24)).1 =
      { currentPage := (0 : Int), scrollY := 0 } :=
  menu_click_selects_page { currentPage := 1, scrollY := 9 } 21 24 3 22 0
    (Or.inl (by decide)) (by decide) (by decide)

/-! ## C9 -/

/-- Sorting is invariant under permutation of the input list. -/
theorem sortStrings_perm (l1 l2 : List String) (h : l1.Perm l2) :
    sortStrings l1 = sortStrings l2 := by
  unfold sortStrings
  refine List.eq_of_perm_of_sorted ?_ (List.sorted_insertionSort _ _)
    (List.sorted_insertionSort _ _)
  exact ((List.perm_insertionSort _ l1).trans h).trans
    (List.perm_insertionSort _ l2).symm

/-- The category section only depends on the key list through its length
and its sorted order, so any iteration order of the map gives the same
draw calls. -/
theorem catSection_perm (keys1 keys2 : List String) (h : keys1.Perm keys2) :
    catSection keys1 = catSection keys2 := by
  funext catMap x cH width y
  unfold catSection
  rw [h.length_eq, sortStrings_perm keys1 keys2 h]

/-- C9: `renderCPU` draws the feature-category sections in sorted key
order: permuting the iteration order of the backing map's keys leaves the
full draw-call list unchanged. -/
theorem renderCPU_category_order_deterministic (info : CPUInfo) (ks : List String)
    (hperm : info.FeatureCategoriesKeys.Perm ks) (scrollY width height : Int) :
    renderCPU info scrollY width height =
      renderCPU { info with FeatureCategoriesKeys := ks } scrollY width height := by
  simp only [renderCPU]
  rw [catSection_perm info.FeatureCategoriesKeys ks hperm]

/-- C9 witness: the concrete snapshot rendered with its two category keys
in either order gives identical draw calls. -/
theorem renderCPU_category_order_deterministic_witness :
    List.Perm (snapC9a.FeatureCategoriesKeys) (["base", "simd"]) ∧
    renderCPU snapC9a 0 80 40 =
      renderCPU { snapC9a with FeatureCategoriesKeys := ["base", "simd"] } 0 80 40 :=
  ⟨by decide,
   renderCPU_category_order_deterministic snapC9a (["base", "simd"]) (by decide) 0 80 40⟩

/-! ## C10 -/

/-- C10: a primary-button press on one of the two menu rows whose column
misses every menu item rectangle leaves the page and the scroll offset
unchanged and triggers no render. -/
theorem menu_click_miss_no_effect (s : AppState) (width height mx my : Int)
    (hrow : my = height - 2 ∨ my = height - 3)
    (hmiss : ∀ p ∈ mouseMenuRects width, mx < p.1 ∨ p.1 + p.2 ≤ mx) :
    step s (Ev.mouse true false false mx my width height) = (s, false) := by
  have h1 := hmiss (mouseMenuStartX width, 10)
    (by rw [mouseMenuRects_eq]; exact List.mem_cons_self _ _)
  have h2 := hmiss (mouseMenuStartX width + 10, 6)
    (by rw [mouseMenuRects_eq]; exact List.mem_cons_of_mem _ (List.mem_cons_self _ _))
  dsimp only at h1 h2
  have hhit : mouseHitTest width mx = none := by
    rw [mouseHitTest_unfold, if_neg (by rintro ⟨a, b⟩; omega),
      if_neg (by rintro ⟨a, b⟩; omega)]
  exact step_click_none s width height mx my hrow hhit

/-- C10 witness: clicking at column 1 of row 22 in a 21 by 24 terminal
misses the menu (items span `[3, 19)`) and nothing happens. -/
theorem menu_click_miss_no_effect_witness :
    step { currentPage := 0, scrollY := 7 } (Ev.mouse true false false 1 22 21 24) =
      ({ currentPage := 0, scrollY := 7 }, false) :=
  menu_click_miss_no_effect { currentPage := 0, scrollY := 7 } 21 24 1 22
    (Or.inl (by decide)) (by decide)

end Ehw
